/-
  Verification development for the azoni-moltbook-agent repository.

  Shallow embedding of the agent's core logic:
  * `src/agent/tools.py`  — circuit breaker and `MoltbookClient._request` retry loop
  * `src/agent/nodes.py`  — the Observe / Decide / Draft / Evaluate / Execute / Log nodes
  * `src/agent/graph.py`  — the pipeline wiring (`build_agent_graph` / `run_agent`)
  * `src/api/server.py`   — `can_post`, `post_job`, `upvote_job`

  External effects (HTTP responses, LLM replies, Firestore reads) are supplied
  as explicit environment values; fallible operations return `Except`.
  Machine floats for timestamps are modelled as exact integers (whole seconds).
-/
import Mathlib

namespace Moltbook

/-! ### String helpers

Python's `needle in haystack` substring test and `str.lower()`. -/

/-- Here `listStarts n h` is true when the char list `n` is an initial segment of `h`. -/
def listStarts : List Char → List Char → Bool
  | [], _ => true
  | _ :: _, [] => false
  | a :: as, b :: bs => a == b && listStarts as bs

/-- Here `listSub n h` holds when the char list `n` occurs contiguously inside `h`
(Python's `n in h` on strings). -/
def listSub (n : List Char) : List Char → Bool
  | [] => n.isEmpty
  | c :: cs => listStarts n (c :: cs) || listSub n cs

/-- Python `needle in hay` for strings. -/
def strSub (needle hay : String) : Bool :=
  listSub needle.toList hay.toList

/-- Python `s.lower()` (ASCII case folding, as used by the agent's string checks). -/
def sLower (s : String) : String :=
  ⟨s.toList.map Char.toLower⟩

/-- Lexicographic comparison of char lists by code point: Python's `<` on
strings. -/
def charListLt : List Char → List Char → Bool
  | _, [] => false
  | [], _ :: _ => true
  | a :: as, b :: bs => decide (a < b) || (a == b && charListLt as bs)

/-- Python `s < t` on strings. -/
def strLtB (s t : String) : Bool :=
  charListLt s.toList t.toList

/-! ### Circuit breaker (src/agent/tools.py lines 15–75)

Module-level constants and the breaker state `(consecutiveFailures,
lastFailureTime)` mutated by `_record_success` / `_record_failure`. -/

def CIRCUIT_BREAKER_THRESHOLD : ℕ := 3

def CIRCUIT_BREAKER_COOLDOWN : ℤ := 300

def MAX_RETRIES : ℕ := 2

def RETRY_BACKOFF : ℤ := 2

/-- The module-global breaker state of tools.py. -/
structure Breaker where
  consecutiveFailures : ℕ
  lastFailureTime : ℤ
  deriving DecidableEq, Repr

/-- Model of `_circuit_is_open()` of tools.py: open when the failure count has reached the
threshold and the cooldown since the last failure has not yet passed. -/
def circuitIsOpen (now : ℤ) (b : Breaker) : Bool :=
  if b.consecutiveFailures < CIRCUIT_BREAKER_THRESHOLD then false
  else if now - b.lastFailureTime > CIRCUIT_BREAKER_COOLDOWN then false
  else true

/-- Model of `_record_success()`: reset the consecutive-failure count. -/
def recordSuccess (b : Breaker) : Breaker :=
  { b with consecutiveFailures := 0 }

/-- Model of `_record_failure()`: bump the failure count and stamp the failure time. -/
def recordFailure (now : ℤ) (b : Breaker) : Breaker :=
  { consecutiveFailures := b.consecutiveFailures + 1, lastFailureTime := now }

/-! ### `MoltbookClient._request` (src/agent/tools.py lines 104–179) -/

/-- What the network does on one attempt of the retry loop: the request either
succeeds (2xx/3xx), times out, yields an HTTP error status (4xx/5xx, raised by
`raise_for_status`), fails to connect, or raises some other exception. -/
inductive AttemptOutcome where
  | success
  | timeout
  | httpStatus (code : ℕ)
  | connectError
  | otherError
  deriving DecidableEq, Repr

/-- How `_request` ends: a response, or a `MoltbookAPIError` of one of three
shapes (circuit open, non-retryable client error carrying the status code, or
all attempts exhausted with the `is_timeout` flag of the last error). -/
inductive RequestError where
  | circuitOpen
  | clientError (status : ℕ)
  | exhausted (isTimeout : Bool)
  deriving DecidableEq, Repr

deriving instance DecidableEq for Except

/-- Observable trace of one `_request` call: its result, the final breaker
state, how many network attempts were made, and the backoff sleeps performed. -/
structure RequestTrace where
  result : Except RequestError Unit
  breaker : Breaker
  attempts : ℕ
  waits : List ℤ
  deriving DecidableEq, Repr

/-- The `for attempt in range(MAX_RETRIES + 1)` loop of `_request`.
`remaining` counts loop iterations left, `made` the attempts already made
(equal to the Python `attempt` index), `lastTO` whether the last recorded error
was a timeout, `waits` the backoff sleeps so far (reversed). -/
def runAttempts (outcomes : ℕ → AttemptOutcome) (now : ℤ) :
    ℕ → ℕ → Breaker → Bool → List ℤ → RequestTrace
  | 0, made, b, lastTO, waits =>
      ⟨.error (.exhausted lastTO), b, made, waits.reverse⟩
  | remaining + 1, made, b, _, waits =>
      match outcomes made with
      | .success =>
          ⟨.ok (), recordSuccess b, made + 1, waits.reverse⟩
      | .timeout =>
          let b' := recordFailure now b
          if made < MAX_RETRIES then
            runAttempts outcomes now remaining (made + 1) b' true
              (RETRY_BACKOFF * 2 ^ made :: waits)
          else
            runAttempts outcomes now remaining (made + 1) b' true waits
      | .httpStatus code =>
          -- "Don't retry client errors (4xx) except 429 (rate limit)": the
          -- raise happens before `_record_failure`, so the breaker is untouched.
          if 400 ≤ code ∧ code < 500 ∧ code ≠ 429 then
            ⟨.error (.clientError code), b, made + 1, waits.reverse⟩
          else
            let b' := recordFailure now b
            if made < MAX_RETRIES then
              runAttempts outcomes now remaining (made + 1) b' false
                (RETRY_BACKOFF * 2 ^ made :: waits)
            else
              runAttempts outcomes now remaining (made + 1) b' false waits
      | .connectError =>
          let b' := recordFailure now b
          if made < MAX_RETRIES then
            runAttempts outcomes now remaining (made + 1) b' false
              (RETRY_BACKOFF * 2 ^ made :: waits)
          else
            runAttempts outcomes now remaining (made + 1) b' false waits
      | .otherError =>
          -- "Don't retry unknown errors": record the failure and break out.
          ⟨.error (.exhausted false), recordFailure now b, made + 1, waits.reverse⟩

/-- Model of `MoltbookClient._request`: the circuit-breaker gate followed by the retry
loop.  `outcomes n` is what the network does on attempt `n`. -/
def request (outcomes : ℕ → AttemptOutcome) (now : ℤ) (b : Breaker) : RequestTrace :=
  if circuitIsOpen now b then
    ⟨.error .circuitOpen, b, 0, []⟩
  else
    runAttempts outcomes now (MAX_RETRIES + 1) 0 b false []

/-! ### Data model of the agent pipeline (src/agent/state.py, src/agent/nodes.py)

Feed posts carry the fields the nodes actually read; a missing `id` is the
empty string (Python falsy), and a dict-valued `author` is modelled after the
`author.get("name")` extraction the code performs. -/

structure Post where
  id : String
  title : String
  author : String
  upvotes : ℤ
  commentCount : ℤ
  deriving DecidableEq, Repr

/-- The agent's action choice (`AgentDecision.action`). -/
inductive Act where
  | post
  | comment
  | upvote
  | nothing
  deriving DecidableEq, Repr

structure Decision where
  action : Act
  targetPostId : Option String
  deriving DecidableEq, Repr

structure Draft where
  content : String
  title : Option String
  submolt : String
  deriving DecidableEq, Repr

structure QualityCheck where
  approved : Bool
  score : ℚ
  deriving DecidableEq, Repr

/-- One document added to the `moltbook_activity` Firestore collection by
`execute_node`: its `action` field, whether the `result` field holds a platform
response (`some ()`) or the untouched empty dict `{}` (`none`), and whether it
is the error-shaped record written by the `except` branch. -/
structure ActivityRecord where
  action : String
  result : Option Unit
  isError : Bool
  deriving DecidableEq, Repr

/-- The parsed JSON fields of the evaluator LLM's reply (the `re.search` +
`json.loads` extraction in `evaluate_node`; `none` = parsing failed). -/
structure EvalParsed where
  approved : Bool
  score : ℚ
  deriving Repr

/-- External effects of one pipeline run.  Each field is what the
corresponding network / LLM / Firestore operation does when reached;
`.error` means the Python call raises. -/
structure Env where
  hotFeed : Except String (List Post)
  newFeed : Except String (List Post)
  stateRead : Except String (Option ℤ)
  decideDb : Except String Unit
  decideLLM : Except String String
  draftLLM : Except String String
  evalLLM : Except String (Option EvalParsed)
  postCall : Except String Unit
  commentCall : Except String Unit
  upvoteCall : Except String Unit

/-- The LangGraph run state (src/agent/state.py `AgentState`), plus two
instrumentation fields: `remoteCalls` lists the Moltbook platform calls made by
`execute_node`, and `summaryWritten` records that `log_node` wrote its
`last_run` summary. -/
structure AgentSt where
  triggerContext : Option String
  feed : List Post
  lastActivity : Option ℤ
  decision : Option Decision
  draft : Option Draft
  qualityCheck : Option QualityCheck
  executed : Bool
  error : Option String
  activity : List ActivityRecord
  remoteCalls : List String
  llmCalls : ℕ
  summaryWritten : Bool
  deriving Repr

/-- The initial state built by `run_agent` (src/agent/graph.py lines 136–152). -/
def initState (tctx : Option String) : AgentSt :=
  { triggerContext := tctx, feed := [], lastActivity := none, decision := none,
    draft := none, qualityCheck := none, executed := false, error := none,
    activity := [], remoteCalls := [], llmCalls := 0, summaryWritten := false }

/-! ### Observe (src/agent/nodes.py lines 87–132) -/

/-- The `seen_ids` / `combined_feed` loop of `observe_node`: keep a post when
its id is non-empty (truthy) and not seen before. -/
def dedupeGo (seen : List String) : List Post → List Post
  | [] => []
  | p :: ps =>
      if p.id != "" && !(seen.contains p.id) then
        p :: dedupeGo (p.id :: seen) ps
      else
        dedupeGo seen ps

/-- Merge the hot and new feed views: dedupe by id over `hot ++ new` (first
occurrence wins) and cap at 20 (`combined_feed[:20]`). -/
def mergeFeeds (hot new : List Post) : List Post :=
  (dedupeGo [] (hot ++ new)).take 20

/-- Model of `observe_node`: the whole body is inside one `try`; any failure of the two
feed fetches or the Firestore state read is caught and becomes the state's
`error` field with an empty feed.  This node never re-raises. -/
def observeNode (env : Env) (st : AgentSt) : Except String AgentSt :=
  match env.hotFeed with
  | .error e => .ok { st with feed := [], error := some ("Failed to observe: " ++ e) }
  | .ok hot =>
    match env.newFeed with
    | .error e => .ok { st with feed := [], error := some ("Failed to observe: " ++ e) }
    | .ok new =>
      match env.stateRead with
      | .error e => .ok { st with feed := [], error := some ("Failed to observe: " ++ e) }
      | .ok la => .ok { st with feed := mergeFeeds hot new, lastActivity := la }

/-! ### Decide and target resolution (src/agent/nodes.py lines 137–286) -/

/-- Does a feed post's title match the generated text (first pass of
`find_target_post`): non-empty lowered title of length > 5 whose first 20
characters occur in `response_text`. -/
def titleHit (p : Post) (rtext : String) : Bool :=
  let t := sLower p.title
  t != "" && decide (5 < t.length) && strSub (t.take 20) rtext

/-- Does a feed post's id occur in the raw LLM reply (second pass of
`find_target_post`; the code closes over `response.content`, not the lowered
`response_text` parameter). -/
def idHit (p : Post) (rcontent : String) : Bool :=
  p.id != "" && strSub p.id rcontent

/-- Is the post authored by the agent itself (`author.lower() in
["azoni-ai", "azoni"]`). -/
def isSelfAuthor (p : Post) : Bool :=
  let a := sLower p.author
  a == "azoni-ai" || a == "azoni"

/-- The engagement score of the third pass:
`max(0, 5 - comment_count) + min(upvotes, 3)`. -/
def claimScore (p : Post) : ℤ :=
  max 0 (5 - p.commentCount) + min p.upvotes 3

/-- Strict descending comparison on `(score, id)` pairs: Python's tuple `>`
(score first, then lexicographic id). -/
def tupGt (a b : ℤ × String) : Bool :=
  decide (b.1 < a.1) || (a.1 == b.1 && strLtB b.2 a.2)

/-- Model of `scored.sort(reverse=True); scored[0]`: the maximal `(score, id)` pair,
keeping the earliest element among fully equal pairs (Python's stable sort). -/
def pickBest : ℤ × String → List (ℤ × String) → ℤ × String
  | x, [] => x
  | x, y :: ys => pickBest (if tupGt y x then y else x) ys

/-- Model of `find_target_post(response_text, feed)` of `decide_node`: title match,
then id match against the raw reply, then the engagement-score pick over
non-self-authored posts, then the first non-self-authored post, else `None`. -/
def findTargetPost (rtext rcontent : String) (feed : List Post) : Option String :=
  match feed.find? (fun p => titleHit p rtext) with
  | some p => some p.id
  | none =>
    match feed.find? (fun p => idHit p rcontent) with
    | some p => some p.id
    | none =>
      match (feed.filter (fun p => !isSelfAuthor p)).map (fun p => (claimScore p, p.id)) with
      | s :: ss => some (pickBest s ss).2
      | [] =>
        match feed.find? (fun p => !isSelfAuthor p) with
        | some p => some p.id
        | none => none

/-- The trigger-context phrases that force a comment action. -/
def forceCommentPhrases : List String :=
  ["comment on", "reply to", "respond to", "leave a comment",
   "action: comment", "force comment", "find an interesting post",
   "find a post", "do not create a new post", "add value to the discussion"]

/-- The trigger-context phrases that force a post action. -/
def forcePostPhrases : List String :=
  ["create a new post about", "make a post", "write a post", "post about",
   "introduce yourself", "share something", "force post",
   "must post", "should post", "please post", "do a post", "action: post"]

/-- Model of `decide_node`: a prior error short-circuits to a `nothing` decision;
otherwise the Firestore activity queries run, then the LLM is invoked
(either may raise, and nothing catches it), and the reply plus trigger
context are parsed into a decision. -/
def decideNode (env : Env) (st : AgentSt) : Except String AgentSt :=
  match st.error with
  | some _ => .ok { st with decision := some ⟨.nothing, none⟩ }
  | none => do
    let _ ← env.decideDb
    let resp ← env.decideLLM
    let rtext := sLower resp
    let tctx := sLower (st.triggerContext.getD "")
    let forceComment := forceCommentPhrases.any (fun ph => strSub ph tctx)
    let forcePost := !forceComment && forcePostPhrases.any (fun ph => strSub ph tctx)
    let feed := st.feed
    let d : Decision :=
      if forceComment then ⟨.comment, findTargetPost rtext resp feed⟩
      else if forcePost then ⟨.post, none⟩
      else if strSub "\"post\"" rtext || strSub "action: post" rtext ||
          strSub "decide to post" rtext || strSub "create a post" rtext then
        ⟨.post, none⟩
      else if strSub "\"comment\"" rtext || strSub "action: comment" rtext ||
          strSub "decide to comment" rtext || strSub "comment on" rtext then
        ⟨.comment, findTargetPost rtext resp feed⟩
      else if strSub "\"upvote\"" rtext || strSub "action: upvote" rtext then
        ⟨.upvote, findTargetPost rtext resp feed⟩
      else ⟨.nothing, none⟩
    let d :=
      if d.action = .comment ∧ d.targetPostId = none ∧ feed ≠ [] then
        { d with targetPostId := findTargetPost "" resp feed }
      else d
    let d :=
      if d.action = .upvote ∧ d.targetPostId = none ∧ feed ≠ [] then
        { d with targetPostId := findTargetPost "" resp feed }
      else d
    .ok { st with decision := some d, llmCalls := st.llmCalls + 1 }

/-! ### Draft (src/agent/nodes.py lines 291–392) -/

/-- Model of `draft_node`: skips for non-post/comment actions; for a comment, a missing
target post returns a `None` draft plus an error field; otherwise the LLM is
invoked (unguarded — a raise propagates).  The line-wise Title/Submolt/Content
extraction for posts is pure string postprocessing with no failure path; it is
abstracted here by carrying the raw LLM text as the draft content. -/
def draftNode (env : Env) (st : AgentSt) : Except String AgentSt :=
  let decision := st.decision.getD ⟨.nothing, none⟩
  match decision.action with
  | .post => do
      let resp ← env.draftLLM
      .ok { st with draft := some ⟨resp, some "Thoughts from Azoni", "general"⟩,
                    llmCalls := st.llmCalls + 1 }
  | .comment =>
      let target? : Option Post :=
        match decision.targetPostId with
        | none => none
        | some tid => st.feed.find? (fun p => p.id == tid)
      match target? with
      | none => .ok { st with
          draft := none,
          error := some "Could not find target post" }
      | some _ => do
          let resp ← env.draftLLM
          .ok { st with draft := some ⟨resp, none, "general"⟩,
                        llmCalls := st.llmCalls + 1 }
  | _ => .ok { st with draft := none }

/-! ### Evaluate (src/agent/nodes.py lines 397–452) -/

/-- The fixed red-flag substrings of the post fast path. -/
def redFlags : List String :=
  ["error", "undefined", "null", "lorem ipsum", "todo", "fixme", "exception", "traceback"]

/-- Model of `has_red_flags`: any red flag occurs in the lowered draft content. -/
def hasRedFlags (content : String) : Bool :=
  redFlags.any (fun f => strSub f (sLower content))

/-- Model of `evaluate_node`: no draft ⇒ rejected; a comment with non-empty content is
approved at score 0.8 with no LLM call; a post with non-empty content and no
red flags is approved at score 0.85 with no LLM call; otherwise the evaluator
LLM runs (a raise propagates — only the JSON parsing is guarded), defaults
apply on a parse failure, and a score ≥ 0.5 forces approval. -/
def evaluateNode (env : Env) (st : AgentSt) : Except String AgentSt :=
  match st.draft with
  | none => .ok { st with qualityCheck := some ⟨false, 0⟩ }
  | some d =>
    let action := (st.decision.getD ⟨.nothing, none⟩).action
    if action = .comment ∧ d.content ≠ "" then
      .ok { st with qualityCheck := some ⟨true, 0.8⟩ }
    else if action = .post ∧ d.content ≠ "" ∧ hasRedFlags d.content = false then
      .ok { st with qualityCheck := some ⟨true, 0.85⟩ }
    else do
      let parsed ← env.evalLLM
      let qc : QualityCheck :=
        match parsed with
        | none => ⟨true, 0.8⟩
        | some p => ⟨p.approved, p.score⟩
      let qc := if qc.score ≥ 0.5 then { qc with approved := true } else qc
      .ok { st with qualityCheck := some qc, llmCalls := st.llmCalls + 1 }

/-! ### Execute (src/agent/nodes.py lines 457–573) -/

/-- Model of `execute_node`: `nothing` and unapproved post/comment actions skip; the
platform calls run inside a `try` whose `except` writes an error-shaped
activity record and returns `executed=False`, so this node never re-raises.
A comment or upvote with no `target_post_id` makes no platform call, yet
still falls through to the Firestore activity write with the untouched empty
`result` and returns `executed=True`. -/
def executeNode (env : Env) (st : AgentSt) : Except String AgentSt :=
  let decision := st.decision.getD ⟨.nothing, none⟩
  let action := decision.action
  if action = .nothing then
    .ok { st with executed := false }
  else if (action = .post ∨ action = .comment) ∧
      ((st.qualityCheck.getD ⟨false, 0⟩).approved = false) then
    .ok { st with executed := false }
  else
    match action with
    | .post =>
      match env.postCall with
      | .ok _ => .ok { st with
          remoteCalls := st.remoteCalls ++ ["create_post"],
          activity := st.activity ++ [⟨"post", some (), false⟩],
          executed := true }
      | .error e => .ok { st with
          remoteCalls := st.remoteCalls ++ ["create_post"],
          activity := st.activity ++ [⟨"post", none, true⟩],
          executed := false,
          error := some e }
    | .comment =>
      match decision.targetPostId with
      | none =>
        .ok { st with
          activity := st.activity ++ [⟨"comment", none, false⟩],
          executed := true }
      | some _ =>
        match env.commentCall with
        | .ok _ => .ok { st with
            remoteCalls := st.remoteCalls ++ ["create_comment"],
            activity := st.activity ++ [⟨"comment", some (), false⟩],
            executed := true }
        | .error e => .ok { st with
            remoteCalls := st.remoteCalls ++ ["create_comment"],
            activity := st.activity ++ [⟨"comment", none, true⟩],
            executed := false,
            error := some e }
    | .upvote =>
      match decision.targetPostId with
      | none =>
        .ok { st with
          activity := st.activity ++ [⟨"upvote", none, false⟩],
          executed := true }
      | some _ =>
        match env.upvoteCall with
        | .ok _ => .ok { st with
            remoteCalls := st.remoteCalls ++ ["upvote_post"],
            activity := st.activity ++ [⟨"upvote", some (), false⟩],
            executed := true }
        | .error e => .ok { st with
            remoteCalls := st.remoteCalls ++ ["upvote_post"],
            activity := st.activity ++ [⟨"upvote", none, true⟩],
            executed := false,
            error := some e }
    | .nothing => .ok { st with executed := false }

/-- Model of `log_node`: writes the `last_run` summary to Firestore (modelled as the
`summaryWritten` flag). -/
def logNode (st : AgentSt) : Except String AgentSt :=
  .ok { st with summaryWritten := true }

/-! ### The graph (src/agent/graph.py) -/

/-- Model of `should_draft`: go to Draft exactly for post/comment actions. -/
def shouldDraft (st : AgentSt) : Bool :=
  let action := (st.decision.getD ⟨.nothing, none⟩).action
  action = .post || action = .comment

/-- Model of `should_execute`: non-post/comment always executes; post/comment executes
only when approved, otherwise straight to Log. -/
def shouldExecute (st : AgentSt) : Bool :=
  let action := (st.decision.getD ⟨.nothing, none⟩).action
  if !(action = .post || action = .comment) then true
  else (st.qualityCheck.getD ⟨false, 0⟩).approved

/-- One full run of the compiled graph:
observe → decide → [draft → evaluate →] execute-or-log → log.
Exceptions escaping a node abort the run (LangGraph does not catch them). -/
def runPipeline (env : Env) (st0 : AgentSt) : Except String AgentSt := do
  let st1 ← observeNode env st0
  let st2 ← decideNode env st1
  if shouldDraft st2 then
    let st3 ← draftNode env st2
    let st4 ← evaluateNode env st3
    if shouldExecute st4 then
      let st5 ← executeNode env st4
      logNode st5
    else
      logNode st4
  else
    let st5 ← executeNode env st2
    logNode st5

/-! ### Server jobs (src/api/server.py)

Timestamps here are in whole minutes. -/

/-- Model of `check_autonomous_mode`: it is `false` when the config read raises, the document
is missing, or the flag is absent/off. -/
def checkAutonomousMode (cfg : Except Unit (Option Bool)) : Bool :=
  match cfg with
  | .error _ => false
  | .ok none => false
  | .ok (some m) => m

/-- Model of `can_post` (server.py lines 127–152): queries the most recent `post`
activity record.  A raised exception yields `False`; no record, or a record
without a timestamp, yields `True`; otherwise posting is allowed only when
strictly more than 30 minutes have passed. -/
def canPost (now : ℤ) (lastPostQ : Except Unit (Option (Option ℤ))) : Bool :=
  match lastPostQ with
  | .error _ => false
  | .ok none => true
  | .ok (some none) => true
  | .ok (some (some t)) => decide (now - t > 30)

inductive PostJobResult where
  | skippedAutonomous
  | skippedCooldown
  | proceeded
  deriving DecidableEq, Repr

/-- Model of `post_job` (server.py lines 364–377) up to its gates: autonomous mode off
skips; an active cooldown skips; only then do the topic fetch and the agent
run happen (returned as the list of calls made). -/
def postJob (cfg : Except Unit (Option Bool))
    (lastPostQ : Except Unit (Option (Option ℤ))) (now : ℤ) :
    PostJobResult × List String :=
  if !checkAutonomousMode cfg then (.skippedAutonomous, [])
  else if !canPost now lastPostQ then (.skippedCooldown, [])
  else (.proceeded, ["get_next_post_topic", "run_agent"])

/-- A record in the `moltbook_activity` collection as queried by `upvote_job`:
its `action` field and its `decision.target_post_id` field. -/
structure ActRecord where
  action : String
  targetPostId : String
  deriving DecidableEq, Repr

/-- The Firestore dedup query of `upvote_job`: an existing record with
`action == "upvote"` and `decision.target_post_id == post_id`. -/
def upvoteExisting (store : List ActRecord) (pid : String) : Bool :=
  store.any (fun r => r.action == "upvote" && r.targetPostId == pid)

/-- The per-post loop of `upvote_job` (server.py lines 774–814): skip posts
with an existing upvote record; otherwise call `upvote_post` (`resp` says
whether that call raises; a failure is caught and skips to the next post),
record the upvote, and stop after 3 upvotes.  Returns the ids upvote-called,
in order, and the final store. -/
def upvoteJobGo (resp : String → Except Unit Unit) :
    List Post → List ActRecord → ℕ → List String → List String × List ActRecord
  | [], store, _, calls => (calls.reverse, store)
  | p :: ps, store, upvoted, calls =>
    if upvoteExisting store p.id then
      upvoteJobGo resp ps store upvoted calls
    else
      match resp p.id with
      | .error _ => upvoteJobGo resp ps store upvoted (p.id :: calls)
      | .ok _ =>
        let store' := store ++ [⟨"upvote", p.id⟩]
        if upvoted + 1 ≥ 3 then ((p.id :: calls).reverse, store')
        else upvoteJobGo resp ps store' (upvoted + 1) (p.id :: calls)

/-- Model of `upvote_job` over a fetched feed and the current activity store. -/
def upvoteJob (resp : String → Except Unit Unit) (feed : List Post)
    (store : List ActRecord) : List String × List ActRecord :=
  upvoteJobGo resp feed store 0 []

/-! ### Concrete scenarios used by the claim checks -/

/-- A run whose feeds and Firestore reads succeed but whose Decide-phase LLM
call raises. -/
def envDecideDown : Env :=
  ⟨.ok [], .ok [], .ok none, .ok (), .error "llm timeout", .ok "",
   .ok none, .ok (), .ok (), .ok ()⟩

/-- A run whose hot-feed fetch raises and whose later effects all succeed. -/
def envObserveDown : Env :=
  ⟨.error "connect error", .ok [], .ok none, .ok (), .ok "", .ok "",
   .ok none, .ok (), .ok (), .ok ()⟩

/-- Two feed posts by other authors with equal engagement scores; the first in
feed order has the lexicographically smaller id. -/
def cexTieFeed : List Post :=
  [⟨"aaa", "", "alice", 0, 0⟩, ⟨"bbb", "", "bob", 0, 0⟩]

/-- A feed holding a high-scoring self-authored post and two other posts with
distinct scores. -/
def wFeed : List Post :=
  [⟨"self1", "a post by the agent itself", "Azoni-AI", 10, 0⟩,
   ⟨"nv", "t", "carol", 2, 1⟩,
   ⟨"ov", "t2", "dave", 0, 3⟩]

def exA : Post := ⟨"a", "ta", "u1", 1, 1⟩

def exB : Post := ⟨"b", "tb", "u2", 1, 1⟩

def exC : Post := ⟨"c", "tc", "u3", 1, 1⟩

def exD : Post := ⟨"d", "td", "u4", 1, 1⟩

/-! ## Helper lemmas -/

theorem runAttempts_attempts_ge (outcomes : ℕ → AttemptOutcome) (now : ℤ) :
    ∀ remaining made b lastTO waits,
      made ≤ (runAttempts outcomes now remaining made b lastTO waits).attempts := by
  intro remaining
  induction remaining with
  | zero => intro made b lastTO waits; simp [runAttempts]
  | succ r ih =>
    intro made b lastTO waits
    simp only [runAttempts]
    cases outcomes made with
    | success => simp
    | timeout =>
      by_cases h : made < MAX_RETRIES
      · simp only [if_pos h]; exact le_trans (Nat.le_succ made) (ih _ _ _ _)
      · simp only [if_neg h]; exact le_trans (Nat.le_succ made) (ih _ _ _ _)
    | httpStatus code =>
      by_cases hc : 400 ≤ code ∧ code < 500 ∧ code ≠ 429
      · simp [if_pos hc]
      · simp only [if_neg hc]
        by_cases h : made < MAX_RETRIES
        · simp only [if_pos h]; exact le_trans (Nat.le_succ made) (ih _ _ _ _)
        · simp only [if_neg h]; exact le_trans (Nat.le_succ made) (ih _ _ _ _)
    | connectError =>
      by_cases h : made < MAX_RETRIES
      · simp only [if_pos h]; exact le_trans (Nat.le_succ made) (ih _ _ _ _)
      · simp only [if_neg h]; exact le_trans (Nat.le_succ made) (ih _ _ _ _)
    | otherError => simp

theorem runAttempts_attempts_pos (outcomes : ℕ → AttemptOutcome) (now : ℤ)
    (remaining made : ℕ) (b : Breaker) (lastTO : Bool) (waits : List ℤ) :
    made + 1 ≤ (runAttempts outcomes now (remaining + 1) made b lastTO waits).attempts := by
  simp only [runAttempts]
  cases outcomes made with
  | success => simp
  | timeout =>
    by_cases h : made < MAX_RETRIES
    · simp only [if_pos h]; exact runAttempts_attempts_ge outcomes now _ _ _ _ _
    · simp only [if_neg h]; exact runAttempts_attempts_ge outcomes now _ _ _ _ _
  | httpStatus code =>
    by_cases hc : 400 ≤ code ∧ code < 500 ∧ code ≠ 429
    · simp [if_pos hc]
    · simp only [if_neg hc]
      by_cases h : made < MAX_RETRIES
      · simp only [if_pos h]; exact runAttempts_attempts_ge outcomes now _ _ _ _ _
      · simp only [if_neg h]; exact runAttempts_attempts_ge outcomes now _ _ _ _ _
  | connectError =>
    by_cases h : made < MAX_RETRIES
    · simp only [if_pos h]; exact runAttempts_attempts_ge outcomes now _ _ _ _ _
    · simp only [if_neg h]; exact runAttempts_attempts_ge outcomes now _ _ _ _ _
  | otherError => simp

theorem runAttempts_attempts_le (outcomes : ℕ → AttemptOutcome) (now : ℤ) :
    ∀ remaining made b lastTO waits,
      (runAttempts outcomes now remaining made b lastTO waits).attempts ≤ made + remaining := by
  intro remaining
  induction remaining with
  | zero => intro made b lastTO waits; simp [runAttempts]
  | succ r ih =>
    intro made b lastTO waits
    simp only [runAttempts]
    cases outcomes made with
    | success => simp
    | timeout =>
      by_cases h : made < MAX_RETRIES
      · simp only [if_pos h]; have := ih (made + 1) (recordFailure now b) true
          (RETRY_BACKOFF * 2 ^ made :: waits); omega
      · simp only [if_neg h]; have := ih (made + 1) (recordFailure now b) true waits; omega
    | httpStatus code =>
      by_cases hc : 400 ≤ code ∧ code < 500 ∧ code ≠ 429
      · simp [if_pos hc]
      · simp only [if_neg hc]
        by_cases h : made < MAX_RETRIES
        · simp only [if_pos h]; have := ih (made + 1) (recordFailure now b) false
            (RETRY_BACKOFF * 2 ^ made :: waits); omega
        · simp only [if_neg h]; have := ih (made + 1) (recordFailure now b) false waits; omega
    | connectError =>
      by_cases h : made < MAX_RETRIES
      · simp only [if_pos h]; have := ih (made + 1) (recordFailure now b) false
          (RETRY_BACKOFF * 2 ^ made :: waits); omega
      · simp only [if_neg h]; have := ih (made + 1) (recordFailure now b) false waits; omega
    | otherError => simp

/-! ## Claim C1 -/

/-- Claim C1. For every `_request` call with breaker state at or past the
threshold (`consecutiveFailures ≥ 3`): while `now - lastFailureTime < 300`
the call returns the distinguishable circuit-open error with zero network
attempts and the breaker untouched; once the cooldown has elapsed
(`now - lastFailureTime > 300`) the circuit check passes and at least one
(half-open) attempt goes through. -/
theorem circuit_breaker_gate (outcomes : ℕ → AttemptOutcome) (now : ℤ) (b : Breaker)
    (hf : CIRCUIT_BREAKER_THRESHOLD ≤ b.consecutiveFailures) :
    (now - b.lastFailureTime < CIRCUIT_BREAKER_COOLDOWN →
      request outcomes now b = ⟨.error .circuitOpen, b, 0, []⟩) ∧
    (CIRCUIT_BREAKER_COOLDOWN < now - b.lastFailureTime →
      circuitIsOpen now b = false ∧ 1 ≤ (request outcomes now b).attempts) := by
  constructor
  · intro hc
    have hopen : circuitIsOpen now b = true := by
      unfold circuitIsOpen
      rw [if_neg (by omega), if_neg (by omega)]
    simp [request, hopen]
  · intro hc
    have hopen : circuitIsOpen now b = false := by
      unfold circuitIsOpen
      rw [if_neg (by omega), if_pos (by omega)]
    refine ⟨hopen, ?_⟩
    simp only [request, hopen, Bool.false_eq_true, if_false]
    exact runAttempts_attempts_pos outcomes now MAX_RETRIES 0 b false []

/-- Witness for C1 at a concrete breaker state: 3 failures 100 s ago fail
fast; 3 failures 400 s ago let one attempt through. -/
theorem circuit_breaker_gate_witness :
    request (fun _ => .success) 100 ⟨3, 0⟩ = ⟨.error .circuitOpen, ⟨3, 0⟩, 0, []⟩ ∧
    (circuitIsOpen 400 ⟨3, 0⟩ = false ∧ 1 ≤ (request (fun _ => .success) 400 ⟨3, 0⟩).attempts) :=
  ⟨(circuit_breaker_gate (fun _ => .success) 100 ⟨3, 0⟩ (by decide)).1 (by decide),
   (circuit_breaker_gate (fun _ => .success) 400 ⟨3, 0⟩ (by decide)).2 (by decide)⟩

/-! ## Claim C2 -/

/-- Claim C2. `_request` makes at most 3 attempts; a non-429 4xx on the first
attempt ends the call at once (one attempt, no backoff sleeps) with a typed
error carrying the status; a second attempt happens only after a timeout,
connection error, or 429/5xx status; and a run of pure timeouts (resp. pure
500s) performs all 3 attempts with backoff sleeps of 2 s then 4 s. -/
theorem retry_policy (outcomes : ℕ → AttemptOutcome) (now : ℤ) (b : Breaker)
    (hvalid : ∀ n c, outcomes n = .httpStatus c → 400 ≤ c ∧ c < 600) :
    ((request outcomes now b).attempts ≤ MAX_RETRIES + 1) ∧
    (∀ c, circuitIsOpen now b = false → outcomes 0 = .httpStatus c →
      400 ≤ c → c < 500 → c ≠ 429 →
      request outcomes now b = ⟨.error (.clientError c), b, 1, []⟩) ∧
    (2 ≤ (request outcomes now b).attempts →
      outcomes 0 = .timeout ∨ outcomes 0 = .connectError ∨
      ∃ c, outcomes 0 = .httpStatus c ∧ (c = 429 ∨ 500 ≤ c)) ∧
    (circuitIsOpen now b = false → (∀ n, outcomes n = .timeout) →
      (request outcomes now b).attempts = 3 ∧ (request outcomes now b).waits = [2, 4]) ∧
    (circuitIsOpen now b = false → (∀ n, outcomes n = .httpStatus 500) →
      (request outcomes now b).attempts = 3) := by
  refine ⟨?_, ?_, ?_, ?_, ?_⟩
  · unfold request
    by_cases hopen : circuitIsOpen now b = true
    · simp [hopen]
    · simp only [Bool.not_eq_true] at hopen
      simp only [hopen, Bool.false_eq_true, if_false]
      exact runAttempts_attempts_le outcomes now (MAX_RETRIES + 1) 0 b false []
  · intro c hopen h0 h4 h5 h9
    simp [request, hopen, runAttempts, h0, if_pos (show 400 ≤ c ∧ c < 500 ∧ c ≠ 429 from ⟨h4, h5, h9⟩)]
  · intro h2
    by_cases hopen : circuitIsOpen now b = true
    · simp [request, hopen] at h2
    · simp only [Bool.not_eq_true] at hopen
      simp only [request, hopen, Bool.false_eq_true, if_false] at h2
      cases h0 : outcomes 0 with
      | success => simp [runAttempts, h0] at h2
      | timeout => exact Or.inl rfl
      | httpStatus c =>
        refine Or.inr (Or.inr ⟨c, rfl, ?_⟩)
        have hv := hvalid 0 c h0
        by_cases hcl : 400 ≤ c ∧ c < 500 ∧ c ≠ 429
        · simp [runAttempts, h0, if_pos hcl] at h2
        · omega
      | connectError => exact Or.inr (Or.inl rfl)
      | otherError => simp [runAttempts, h0] at h2
  · intro hopen hto
    constructor <;>
      simp [request, hopen, runAttempts, hto, MAX_RETRIES, RETRY_BACKOFF]
  · intro hopen h5
    have hns : ¬ (400 ≤ 500 ∧ 500 < 500 ∧ 500 ≠ 429) := by omega
    simp [request, hopen, runAttempts, h5, if_neg hns, MAX_RETRIES]

/-- Witness for C2: a pure-timeout run makes exactly 3 attempts with sleeps
[2, 4], and a 404 on the first attempt ends the call at one attempt. -/
theorem retry_policy_witness :
    (request (fun _ => .timeout) 50 ⟨0, 0⟩).attempts = 3 ∧
    (request (fun _ => .timeout) 50 ⟨0, 0⟩).waits = [2, 4] ∧
    request (fun _ => .httpStatus 404) 50 ⟨0, 0⟩ = ⟨.error (.clientError 404), ⟨0, 0⟩, 1, []⟩ := by
  have h1 := (retry_policy (fun _ => .timeout) 50 ⟨0, 0⟩ (by intro n c h; cases h)).2.2.2.1
    (by decide) (fun _ => rfl)
  have h2 := (retry_policy (fun _ => .httpStatus 404) 50 ⟨0, 0⟩
    (by intro n c h; cases h; omega)).2.1 404 (by decide) rfl (by omega) (by omega) (by omega)
  exact ⟨h1.1, h1.2, h2⟩

/-! ## Claim C3 -/

/-- Claim C3, counterexample. A request whose single attempt fails with a 404
(a failed attempt) leaves the breaker state completely unchanged —
`consecutiveFailures` is not incremented and `lastFailureTime` is not
stamped — contradicting the claim that every failed attempt updates the
breaker. -/
theorem breaker_update_counterexample :
    (request (fun _ => .httpStatus 404) 17 ⟨0, 5⟩).result = .error (.clientError 404) ∧
    (request (fun _ => .httpStatus 404) 17 ⟨0, 5⟩).breaker = ⟨0, 5⟩ ∧
    (request (fun _ => .httpStatus 404) 17 ⟨0, 5⟩).breaker ≠ recordFailure 17 ⟨0, 5⟩ := by
  decide

/-- Claim C3, amended. Every attempt except a non-429 4xx response updates the
breaker state: a successful attempt resets `consecutiveFailures` to 0; a
timeout-style run records one failure per attempt (three timeouts give
`+3` and stamp `lastFailureTime := now`); an unexpected error records one
failure; but a non-429 4xx raises before `_record_failure`, leaving the
breaker unchanged. -/
theorem breaker_update_policy (outcomes : ℕ → AttemptOutcome) (now : ℤ) (b : Breaker)
    (hopen : circuitIsOpen now b = false) :
    (outcomes 0 = .success →
      (request outcomes now b).breaker = ⟨0, b.lastFailureTime⟩) ∧
    (outcomes 0 = .otherError →
      (request outcomes now b).breaker = ⟨b.consecutiveFailures + 1, now⟩) ∧
    (∀ c, outcomes 0 = .httpStatus c → 400 ≤ c → c < 500 → c ≠ 429 →
      (request outcomes now b).breaker = b) ∧
    ((∀ n, outcomes n = .timeout) →
      (request outcomes now b).breaker = ⟨b.consecutiveFailures + 3, now⟩) := by
  refine ⟨?_, ?_, ?_, ?_⟩
  · intro h0
    simp [request, hopen, runAttempts, h0, recordSuccess]
  · intro h0
    simp [request, hopen, runAttempts, h0, recordFailure]
  · intro c h0 h4 h5 h9
    simp [request, hopen, runAttempts, h0, if_pos (show 400 ≤ c ∧ c < 500 ∧ c ≠ 429 from ⟨h4, h5, h9⟩)]
  · intro hto
    simp [request, hopen, runAttempts, hto, MAX_RETRIES, recordFailure]

/-- Witness for C3 (amended): success resets a 2-failure breaker; three
timeouts bump it from 2 to 5 and stamp the time. -/
theorem breaker_update_policy_witness :
    (request (fun _ => .success) 40 ⟨2, 7⟩).breaker = ⟨0, 7⟩ ∧
    (request (fun _ => .timeout) 40 ⟨2, 7⟩).breaker = ⟨5, 40⟩ :=
  ⟨(breaker_update_policy (fun _ => .success) 40 ⟨2, 7⟩ (by decide)).1 rfl,
   (breaker_update_policy (fun _ => .timeout) 40 ⟨2, 7⟩ (by decide)).2.2.2 (fun _ => rfl)⟩

theorem except_bind_ok {α β ε : Type} (a : α) (f : α → Except ε β) :
    (Except.ok a >>= f) = f a := rfl

theorem except_bind_error {α β ε : Type} (e : ε) (f : α → Except ε β) :
    ((Except.error e : Except ε α) >>= f) = Except.error e := rfl

/-! ## Claim C4 -/

/-- Claim C4, counterexample. A run whose Observe effects all succeed but whose
Decide-phase LLM call raises aborts the whole pipeline with that exception:
the error is re-thrown past the node boundary and the Log node is never
reached, so the run terminates with no audit record. -/
theorem pipeline_reaches_log_counterexample :
    runPipeline envDecideDown (initState none) = .error "llm timeout" := by
  rfl

/-- Claim C4, amended. Exceptions are caught only at the Observe and Execute
boundaries: a failing hot-feed fetch is converted into the run state's
`error` field and the pipeline still reaches Log (the run ends `.ok` with
the summary written), whereas an exception from the Decide-phase LLM call
propagates and aborts the run before Log. -/
theorem pipeline_error_containment (env : Env) (st : AgentSt) :
    (∀ e, env.hotFeed = .error e →
      ∃ f, runPipeline env st = .ok f ∧ f.summaryWritten = true ∧
        f.error = some ("Failed to observe: " ++ e)) ∧
    (∀ e hot nw la, st.error = none → env.hotFeed = .ok hot → env.newFeed = .ok nw →
      env.stateRead = .ok la → env.decideDb = .ok () → env.decideLLM = .error e →
      runPipeline env st = .error e) := by
  constructor
  · intro e he
    simp only [runPipeline, observeNode, he, except_bind_ok, decideNode, shouldDraft,
      executeNode, logNode, except_bind_error]
    simp only [Option.getD_some, except_bind_ok]
    exact ⟨_, rfl, rfl, rfl⟩
  · intro e hot nw la hst hhot hnew hsr hdb hllm
    simp only [runPipeline, observeNode, hhot, hnew, hsr, except_bind_ok, decideNode, hst,
      hdb, hllm, except_bind_error]

/-- Witness for C4 (amended) at concrete runs: an Observe failure still ends
`.ok` with the summary written, while a Decide LLM failure ends `.error`. -/
theorem pipeline_error_containment_witness :
    (∃ f, runPipeline envObserveDown (initState none) = .ok f ∧
      f.summaryWritten = true ∧
      f.error = some ("Failed to observe: " ++ "connect error")) ∧
    runPipeline envDecideDown (initState none) = .error "llm timeout" :=
  ⟨(pipeline_error_containment envObserveDown (initState none)).1 "connect error" rfl,
   (pipeline_error_containment envDecideDown (initState none)).2
     "llm timeout" [] [] none rfl rfl rfl rfl rfl rfl⟩

/-! ## Claim C7 -/

theorem dedupeGo_sublist : ∀ (l : List Post) (seen), List.Sublist (dedupeGo seen l) l := by
  intro l
  induction l with
  | nil => intro seen; simp [dedupeGo]
  | cons p ps ih =>
    intro seen
    simp only [dedupeGo]
    by_cases h : (p.id != "" && !(seen.contains p.id)) = true
    · rw [if_pos h]; exact (ih (p.id :: seen)).cons₂ p
    · rw [if_neg h]; exact (ih seen).cons p

theorem dedupeGo_nodup : ∀ (l : List Post) (seen),
    ((dedupeGo seen l).map Post.id).Nodup ∧
    ∀ i ∈ (dedupeGo seen l).map Post.id, seen.contains i = false := by
  intro l
  induction l with
  | nil => intro seen; simp [dedupeGo]
  | cons p ps ih =>
    intro seen
    simp only [dedupeGo]
    by_cases h : (p.id != "" && !(seen.contains p.id)) = true
    · rw [if_pos h]
      obtain ⟨hnd, hni⟩ := ih (p.id :: seen)
      have hfresh : ∀ i ∈ (dedupeGo (p.id :: seen) ps).map Post.id,
          (i == p.id) = false ∧ seen.contains i = false := by
        intro i hi
        have := hni i hi
        simpa using this
      refine ⟨?_, ?_⟩
      · simp only [List.map_cons, List.nodup_cons]
        refine ⟨?_, hnd⟩
        intro hmem
        have := (hfresh _ hmem).1
        simp at this
      · intro i hi
        simp only [List.map_cons, List.mem_cons] at hi
        rcases hi with hi | hi
        · subst hi
          simp only [Bool.and_eq_true, bne_iff_ne, Bool.not_eq_true'] at h
          exact h.2
        · exact (hfresh i hi).2
    · rw [if_neg h]; exact ih seen

/-- Claim C7. The Observe merge is order-preserving, de-duplicated by id, and
capped at 20 items: the result is always a sublist of `hot ++ new` of length
at most 20 with pairwise distinct ids, and on the concrete feeds
`hot = [A, B, C]`, `new = [C, D]` it equals `[A, B, C, D]` (first occurrence
wins, hot before new). -/
theorem feed_merge (hot nw : List Post) :
    (mergeFeeds hot nw).length ≤ 20 ∧
    List.Sublist (mergeFeeds hot nw) (hot ++ nw) ∧
    ((mergeFeeds hot nw).map Post.id).Nodup ∧
    mergeFeeds [exA, exB, exC] [exC, exD] = [exA, exB, exC, exD] := by
  refine ⟨?_, ?_, ?_, ?_⟩
  · simp [mergeFeeds, List.length_take]
  · exact (List.take_sublist 20 _).trans (dedupeGo_sublist (hot ++ nw) [])
  · have hnd := (dedupeGo_nodup (hot ++ nw) []).1
    have hsub : List.Sublist ((mergeFeeds hot nw).map Post.id)
        ((dedupeGo [] (hot ++ nw)).map Post.id) :=
      List.Sublist.map Post.id (List.take_sublist 20 _)
    exact hnd.sublist hsub
  · decide

/-! ## Claim C8 -/

/-- Claim C8. With autonomous mode enabled, a `post` job whose most recent
`post` activity record is stamped less than 30 minutes before now skips on
the cooldown gate without fetching a topic or running the agent; and when
the cooldown read raises, `can_post` returns `False` and the job skips the
same way. -/
theorem post_cooldown (cfg : Except Unit (Option Bool))
    (q : Except Unit (Option (Option ℤ))) (now t : ℤ)
    (ha : checkAutonomousMode cfg = true) :
    (q = .ok (some (some t)) → now - t < 30 →
      postJob cfg q now = (.skippedCooldown, [])) ∧
    (q = .error () → canPost now q = false ∧ postJob cfg q now = (.skippedCooldown, [])) := by
  constructor
  · intro hq hlt
    have hcp : canPost now q = false := by
      simp [canPost, hq]; omega
    simp [postJob, ha, hcp]
  · intro hq
    have hcp : canPost now q = false := by simp [canPost, hq]
    exact ⟨hcp, by simp [postJob, ha, hcp]⟩

/-- Witness for C8: a post 10 minutes ago skips the job; a failing cooldown
read yields `can_post = false` and also skips. -/
theorem post_cooldown_witness :
    postJob (.ok (some true)) (.ok (some (some 100))) 110 = (.skippedCooldown, []) ∧
    (canPost 110 (.error ()) = false ∧
      postJob (.ok (some true)) (.error ()) 110 = (.skippedCooldown, [])) :=
  ⟨(post_cooldown (.ok (some true)) (.ok (some (some 100))) 110 100 rfl).1 rfl (by omega),
   (post_cooldown (.ok (some true)) (.error ()) 110 0 rfl).2 rfl⟩

/-! ## Claim C9 -/

theorem upvoteJobGo_no_dup_call (resp : String → Except Unit Unit) :
    ∀ (feed : List Post) (store : List ActRecord) (upvoted : ℕ) (calls : List String)
      (tid : String), upvoteExisting store tid = true → tid ∉ calls →
      tid ∉ (upvoteJobGo resp feed store upvoted calls).1 := by
  intro feed
  induction feed with
  | nil =>
    intro store upvoted calls tid hex hc
    simpa [upvoteJobGo] using hc
  | cons p ps ih =>
    intro store upvoted calls tid hex hc
    simp only [upvoteJobGo]
    by_cases he : upvoteExisting store p.id = true
    · rw [if_pos he]; exact ih store upvoted calls tid hex hc
    · rw [if_neg he]
      have hne : tid ≠ p.id := by
        intro h; rw [← h] at he; exact he hex
      cases hr : resp p.id with
      | error u =>
        exact ih store upvoted (p.id :: calls) tid hex (by simp [hne, hc])
      | ok u =>
        by_cases hu : upvoted + 1 ≥ 3
        · rw [if_pos hu]; simp [hne, hc]
        · rw [if_neg hu]
          refine ih (store ++ [⟨"upvote", p.id⟩]) (upvoted + 1) (p.id :: calls) tid ?_
            (by simp [hne, hc])
          unfold upvoteExisting at hex ⊢
          rw [List.any_append, hex, Bool.true_or]

/-- Claim C9. If the activity store already holds a record with
`action = "upvote"` for a given target post id, the upvote job never calls
`upvote_post` on that id: the id is absent from the list of upvote calls the
job makes, for every feed and every behaviour of the platform. -/
theorem upvote_dedup (resp : String → Except Unit Unit) (feed : List Post)
    (store : List ActRecord) (r : ActRecord)
    (hr : r ∈ store) (ha : r.action = "upvote") :
    r.targetPostId ∉ (upvoteJob resp feed store).1 := by
  apply upvoteJobGo_no_dup_call resp feed store 0 [] r.targetPostId
  · exact List.any_eq_true.mpr ⟨r, hr, by simp [ha]⟩
  · simp

/-- Witness for C9: with an existing upvote record for post "x", a feed
containing "x" never triggers a second upvote call on "x". -/
theorem upvote_dedup_witness :
    "x" ∉ (upvoteJob (fun _ => .ok ()) [⟨"x", "tx", "u", 0, 0⟩, ⟨"y", "ty", "v", 0, 0⟩]
      [⟨"upvote", "x"⟩]).1 :=
  upvote_dedup (fun _ => .ok ()) [⟨"x", "tx", "u", 0, 0⟩, ⟨"y", "ty", "v", 0, 0⟩]
    [⟨"upvote", "x"⟩] ⟨"upvote", "x"⟩ (by simp) rfl

/-! ## Claim C10 -/

/-- Claim C10. When the decision is an approved `comment` with no
`target_post_id`, `execute_node` makes no platform call yet still appends an
activity record with action `"comment"` and the untouched empty result, and
returns `executed = true` — exactly the flag value of a successfully
executed comment (second conjunct), so the two outcomes are
indistinguishable through `executed`. -/
theorem degenerate_comment_execute (env : Env) (st : AgentSt) (qc : QualityCheck)
    (hq : st.qualityCheck = some qc) (hap : qc.approved = true) :
    (st.decision = some ⟨.comment, none⟩ →
      executeNode env st = .ok { st with
        activity := st.activity ++ [⟨"comment", none, false⟩],
        executed := true }) ∧
    (∀ tid, st.decision = some ⟨.comment, some tid⟩ → env.commentCall = .ok () →
      executeNode env st = .ok { st with
        remoteCalls := st.remoteCalls ++ ["create_comment"],
        activity := st.activity ++ [⟨"comment", some (), false⟩],
        executed := true }) := by
  constructor
  · intro hd
    simp [executeNode, hd, hq, hap]
  · intro tid hd hcall
    simp [executeNode, hd, hq, hap, hcall]

/-- Witness for C10: a concrete approved comment decision without a target
produces the degenerate record with `executed = true` and no remote call. -/
theorem degenerate_comment_execute_witness :
    executeNode envObserveDown
      { initState none with
        decision := some ⟨.comment, none⟩,
        qualityCheck := some ⟨true, 1⟩ } =
    .ok { initState none with
      decision := some ⟨.comment, none⟩,
      qualityCheck := some ⟨true, 1⟩,
      activity := [⟨"comment", none, false⟩],
      executed := true } :=
  (degenerate_comment_execute envObserveDown
    { initState none with
      decision := some ⟨.comment, none⟩,
      qualityCheck := some ⟨true, 1⟩ } ⟨true, 1⟩ rfl rfl).1 rfl

/-! ## Claim C5 -/

theorem charListLt_irrefl : ∀ l, charListLt l l = false := by
  intro l
  induction l with
  | nil => rfl
  | cons c cs ih => simp [charListLt, ih, lt_irrefl]

theorem charListLt_cons_false_iff (x y : Char) (xs ys : List Char) :
    charListLt (x :: xs) (y :: ys) = false ↔
      (¬ x < y ∧ (x = y → charListLt xs ys = false)) := by
  simp only [charListLt, Bool.or_eq_false_iff, Bool.and_eq_false_iff,
    decide_eq_false_iff_not, beq_eq_false_iff_ne, ne_eq]
  constructor
  · rintro ⟨h1, h2⟩
    refine ⟨h1, fun he => ?_⟩
    rcases h2 with h2 | h2
    · exact absurd he h2
    · exact h2
  · rintro ⟨h1, h2⟩
    refine ⟨h1, ?_⟩
    by_cases he : x = y
    · exact Or.inr (h2 he)
    · exact Or.inl he

theorem charListLt_asymm : ∀ a b, charListLt a b = true → charListLt b a = false := by
  intro a
  induction a with
  | nil =>
    intro b h
    cases b with
    | nil => simp [charListLt] at h
    | cons x xs => rfl
  | cons c cs ih =>
    intro b h
    cases b with
    | nil => simp [charListLt] at h
    | cons x xs =>
      simp only [charListLt, Bool.or_eq_true, Bool.and_eq_true,
        decide_eq_true_eq, beq_iff_eq] at h
      rw [charListLt_cons_false_iff]
      rcases h with h | ⟨he, hr⟩
      · refine ⟨lt_asymm h, fun hh => ?_⟩
        subst hh; exact absurd h (lt_irrefl _)
      · subst he
        exact ⟨lt_irrefl _, fun _ => ih xs hr⟩

theorem charListLt_le_trans : ∀ a b c, charListLt b a = false →
    charListLt c b = false → charListLt c a = false := by
  intro a
  induction a with
  | nil => intro b c h1 h2; cases c <;> rfl
  | cons y ys ih =>
    intro b c h1 h2
    cases c with
    | nil =>
      cases b with
      | nil => simp [charListLt] at h1
      | cons x xs => simp [charListLt] at h2
    | cons z zs =>
      cases b with
      | nil => simp [charListLt] at h1
      | cons x xs =>
        rw [charListLt_cons_false_iff] at h1 h2 ⊢
        obtain ⟨ha1, ha2⟩ := h1
        obtain ⟨hb1, hb2⟩ := h2
        have hyx : y ≤ x := le_of_not_lt ha1
        have hxz : x ≤ z := le_of_not_lt hb1
        constructor
        · intro hzy
          exact absurd (lt_of_lt_of_le hzy (hyx.trans hxz)) (lt_irrefl z)
        · intro he
          subst he
          have hxe : x = z := le_antisymm hxz hyx
          exact ih xs zs (ha2 hxe) (hb2 hxe.symm)

theorem strLtB_asymm (s t : String) (h : strLtB s t = true) : strLtB t s = false :=
  charListLt_asymm _ _ h

theorem strLtB_le_trans {s t u : String} (h1 : strLtB t s = false)
    (h2 : strLtB u t = false) : strLtB u s = false :=
  charListLt_le_trans _ _ _ h1 h2

theorem tupGt_true_iff (a b : ℤ × String) :
    tupGt a b = true ↔ b.1 < a.1 ∨ (a.1 = b.1 ∧ strLtB b.2 a.2 = true) := by
  simp [tupGt, Bool.or_eq_true, Bool.and_eq_true, decide_eq_true_eq, beq_iff_eq]

theorem tupGt_false_iff (a b : ℤ × String) :
    tupGt a b = false ↔ ¬ b.1 < a.1 ∧ (a.1 = b.1 → strLtB b.2 a.2 = false) := by
  simp only [tupGt, Bool.or_eq_false_iff, Bool.and_eq_false_iff,
    decide_eq_false_iff_not, beq_eq_false_iff_ne, ne_eq]
  constructor
  · rintro ⟨h1, h2⟩
    refine ⟨h1, fun he => ?_⟩
    rcases h2 with h2 | h2
    · exact absurd he h2
    · exact h2
  · rintro ⟨h1, h2⟩
    refine ⟨h1, ?_⟩
    by_cases he : a.1 = b.1
    · exact Or.inr (h2 he)
    · exact Or.inl he

theorem tupGt_irrefl (a : ℤ × String) : tupGt a a = false := by
  rw [tupGt_false_iff]
  exact ⟨lt_irrefl _, fun _ => by
    simpa [strLtB] using charListLt_irrefl a.2.toList⟩

theorem tupGt_asymm (a b : ℤ × String) (h : tupGt a b = true) : tupGt b a = false := by
  rw [tupGt_true_iff] at h
  rw [tupGt_false_iff]
  rcases h with h | ⟨he, hs⟩
  · exact ⟨by omega, fun hh => by omega⟩
  · exact ⟨by omega, fun _ => strLtB_asymm _ _ hs⟩

theorem tupGt_le_trans (a b c : ℤ × String) (h1 : tupGt b a = false)
    (h2 : tupGt c b = false) : tupGt c a = false := by
  rw [tupGt_false_iff] at h1 h2 ⊢
  obtain ⟨ha1, ha2⟩ := h1
  obtain ⟨hb1, hb2⟩ := h2
  refine ⟨by omega, fun he => ?_⟩
  have e1 : b.1 = a.1 := by omega
  have e2 : c.1 = b.1 := by omega
  exact strLtB_le_trans (hb2 e2) (ha2 e1)

theorem pickBest_mem : ∀ (l : List (ℤ × String)) (x), pickBest x l ∈ x :: l := by
  intro l
  induction l with
  | nil => intro x; simp [pickBest]
  | cons y ys ih =>
    intro x
    simp only [pickBest]
    have h := ih (if tupGt y x then y else x)
    rcases List.mem_cons.mp h with h | h
    · rw [h]
      by_cases hg : tupGt y x = true
      · simp [hg]
      · simp [hg]
    · exact List.mem_cons_of_mem _ (List.mem_cons_of_mem _ h)

theorem pickBest_not_gt : ∀ (l : List (ℤ × String)) (x z), z ∈ x :: l →
    tupGt z (pickBest x l) = false := by
  intro l
  induction l with
  | nil =>
    intro x z hz
    rcases List.mem_cons.mp hz with h | h
    · subst h; simp [pickBest, tupGt_irrefl]
    · simp at h
  | cons y ys ih =>
    intro x z hz
    simp only [pickBest]
    have hxw : tupGt x (if tupGt y x then y else x) = false := by
      by_cases hg : tupGt y x = true
      · simpa [hg] using tupGt_asymm y x hg
      · simp [hg, tupGt_irrefl]
    have hyw : tupGt y (if tupGt y x then y else x) = false := by
      by_cases hg : tupGt y x = true
      · simp [hg, tupGt_irrefl]
      · simp only [Bool.not_eq_true] at hg
        simp [hg]
    have hbw := ih (if tupGt y x then y else x) _
      (List.mem_cons_self (if tupGt y x then y else x) ys)
    rcases List.mem_cons.mp hz with h | h
    · subst h
      exact tupGt_le_trans _ _ _ hbw hxw
    · rcases List.mem_cons.mp h with h | h
      · subst h
        exact tupGt_le_trans _ _ _ hbw hyw
      · exact ih _ z (List.mem_cons_of_mem _ h)

/-- Claim C5, counterexample. On a feed of two non-self-authored posts with equal
engagement scores and no title or id match, `find_target_post` returns the
second post "bbb" (the lexicographically larger id, from
`scored.sort(reverse=True)` comparing the `(score, id)` tuples), not the
first post "aaa" that feed-order tie-breaking would give. -/
theorem target_tie_break_counterexample :
    findTargetPost "" "" cexTieFeed = some "bbb" ∧
    cexTieFeed.map claimScore = [5, 5] ∧
    cexTieFeed.head?.map Post.id = some "aaa" ∧
    ∀ p ∈ cexTieFeed, titleHit p "" = false ∧ idHit p "" = false ∧
      isSelfAuthor p = false := by
  decide

/-- Claim C5, amended. When no title match and no id match exists in the feed,
`find_target_post` never returns a self-authored post: whenever it returns an
id, that id belongs to a non-self-authored feed post that maximises the
engagement score `max(0, 5 - commentCount) + min(upvoteCount, 3)` among all
non-self-authored posts, with ties broken towards the lexicographically
larger id (not feed order); and it does return an id whenever some
non-self-authored post exists. -/
theorem target_resolution_amended (rt rc : String) (feed : List Post)
    (hT : ∀ p ∈ feed, titleHit p rt = false)
    (hI : ∀ p ∈ feed, idHit p rc = false) :
    (∀ i, findTargetPost rt rc feed = some i →
      ∃ p, p ∈ feed ∧ p.id = i ∧ isSelfAuthor p = false ∧
        ∀ q ∈ feed, isSelfAuthor q = false →
          tupGt (claimScore q, q.id) (claimScore p, p.id) = false) ∧
    ((∃ p, p ∈ feed ∧ isSelfAuthor p = false) →
      ∃ i, findTargetPost rt rc feed = some i) := by
  have hT' : feed.find? (fun p => titleHit p rt) = none :=
    List.find?_eq_none.mpr (fun p hp => by simp [hT p hp])
  have hI' : feed.find? (fun p => idHit p rc) = none :=
    List.find?_eq_none.mpr (fun p hp => by simp [hI p hp])
  constructor
  · intro i hi
    unfold findTargetPost at hi
    rw [hT', hI'] at hi
    rcases hs : (feed.filter (fun p => !isSelfAuthor p)).map
        (fun p => (claimScore p, p.id)) with _ | ⟨sc, ss⟩
    · rw [hs] at hi
      simp only at hi
      have hfil : feed.filter (fun p => !isSelfAuthor p) = [] :=
        List.map_eq_nil_iff.mp hs
      have hnone : feed.find? (fun p => !isSelfAuthor p) = none := by
        rw [List.find?_eq_none]
        intro p hp hcon
        have : p ∈ feed.filter (fun p => !isSelfAuthor p) :=
          List.mem_filter.mpr ⟨hp, hcon⟩
        rw [hfil] at this
        simp at this
      rw [hnone] at hi
      simp at hi
    · rw [hs] at hi
      simp only [Option.some.injEq] at hi
      have hmem : pickBest sc ss ∈ (feed.filter (fun p => !isSelfAuthor p)).map
          (fun p => (claimScore p, p.id)) := by
        rw [hs]; exact pickBest_mem ss sc
      obtain ⟨p, hpfil, hpe⟩ := List.mem_map.mp hmem
      obtain ⟨hpfeed, hpself⟩ := List.mem_filter.mp hpfil
      refine ⟨p, hpfeed, ?_, ?_, ?_⟩
      · rw [← hi]
        exact congrArg Prod.snd hpe
      · simpa using hpself
      · intro q hq hqs
        have hqmem : (claimScore q, q.id) ∈ sc :: ss := by
          rw [← hs]
          exact List.mem_map_of_mem _ (List.mem_filter.mpr ⟨hq, by simp [hqs]⟩)
        have := pickBest_not_gt ss sc _ hqmem
        rwa [← hpe] at this
  · rintro ⟨p, hp, hps⟩
    unfold findTargetPost
    rw [hT', hI']
    rcases hs : (feed.filter (fun p => !isSelfAuthor p)).map
        (fun p => (claimScore p, p.id)) with _ | ⟨sc, ss⟩
    · exfalso
      have hfil : feed.filter (fun p => !isSelfAuthor p) = [] :=
        List.map_eq_nil_iff.mp hs
      have : p ∈ feed.filter (fun p => !isSelfAuthor p) :=
        List.mem_filter.mpr ⟨hp, by simp [hps]⟩
      rw [hfil] at this
      simp at this
    · exact ⟨(pickBest sc ss).2, rfl⟩

set_option maxRecDepth 8000 in
/-- Witness for C5 (amended): on a feed with a high-scoring self-authored
post and two others, resolution picks the non-self post "nv" that maximises
the engagement score among non-self posts. -/
theorem target_resolution_amended_witness :
    ∃ p, p ∈ wFeed ∧ p.id = "nv" ∧ isSelfAuthor p = false ∧
      ∀ q ∈ wFeed, isSelfAuthor q = false →
        tupGt (claimScore q, q.id) (claimScore p, p.id) = false :=
  (target_resolution_amended "" "" wFeed (by decide) (by decide)).1 "nv" (by decide)

/-! ## Claim C6 -/

/-- Claim C6. The quality gate approves every comment draft with non-empty
content unconditionally (no LLM call, score 0.8); approves a post draft with
non-empty content on the fast path only when no red-flag substring occurs;
and a post draft containing "todo" skips the fast path, goes through the
LLM-scored evaluation, and is forced to approved whenever the parsed score
is ≥ 0.5, regardless of the LLM's own verdict. -/
theorem quality_gate (env : Env) (st : AgentSt) (d : Draft)
    (hd : st.draft = some d) :
    ((st.decision.getD ⟨.nothing, none⟩).action = .comment → d.content ≠ "" →
      evaluateNode env st = .ok { st with qualityCheck := some ⟨true, 0.8⟩ }) ∧
    ((st.decision.getD ⟨.nothing, none⟩).action = .post → d.content ≠ "" →
      hasRedFlags d.content = false →
      evaluateNode env st = .ok { st with qualityCheck := some ⟨true, 0.85⟩ }) ∧
    ((st.decision.getD ⟨.nothing, none⟩).action = .post →
      strSub "todo" (sLower d.content) = true →
      ∀ p, env.evalLLM = .ok (some p) → (0.5 : ℚ) ≤ p.score →
        evaluateNode env st = .ok { st with
          qualityCheck := some ⟨true, p.score⟩,
          llmCalls := st.llmCalls + 1 }) := by
  refine ⟨?_, ?_, ?_⟩
  · intro ha hc
    simp [evaluateNode, hd, ha, hc]
  · intro ha hc hf
    simp [evaluateNode, hd, ha, hc, hf]
  · intro ha htodo p hllm hscore
    have hrf : hasRedFlags d.content = true := by
      simp [hasRedFlags, redFlags, htodo]
    simp [evaluateNode, hd, ha, hrf, hllm, except_bind_ok, hscore]

/-- Witness for C6: a concrete non-empty comment draft is fast-approved, and
a concrete post draft containing "TODO" goes through the LLM path and is
approved because the parsed score 0.6 is ≥ 0.5 (though the LLM said
`approved = false`). -/
theorem quality_gate_witness :
    (evaluateNode ⟨.ok [], .ok [], .ok none, .ok (), .ok "", .ok "",
        .ok (some ⟨false, 0.6⟩), .ok (), .ok (), .ok ()⟩
      { initState none with
        decision := some ⟨.comment, none⟩,
        draft := some ⟨"hi", none, "general"⟩ } =
      .ok { initState none with
        decision := some ⟨.comment, none⟩,
        draft := some ⟨"hi", none, "general"⟩,
        qualityCheck := some ⟨true, 0.8⟩ }) ∧
    (evaluateNode ⟨.ok [], .ok [], .ok none, .ok (), .ok "", .ok "",
        .ok (some ⟨false, 0.6⟩), .ok (), .ok (), .ok ()⟩
      { initState none with
        decision := some ⟨.post, none⟩,
        draft := some ⟨"TODO: finish this later", some "t", "general"⟩ } =
      .ok { initState none with
        decision := some ⟨.post, none⟩,
        draft := some ⟨"TODO: finish this later", some "t", "general"⟩,
        qualityCheck := some ⟨true, 0.6⟩,
        llmCalls := 1 }) :=
  ⟨(quality_gate ⟨.ok [], .ok [], .ok none, .ok (), .ok "", .ok "",
        .ok (some ⟨false, 0.6⟩), .ok (), .ok (), .ok ()⟩
      { initState none with
        decision := some ⟨.comment, none⟩,
        draft := some ⟨"hi", none, "general"⟩ }
      ⟨"hi", none, "general"⟩ rfl).1 rfl (by decide),
   (quality_gate ⟨.ok [], .ok [], .ok none, .ok (), .ok "", .ok "",
        .ok (some ⟨false, 0.6⟩), .ok (), .ok (), .ok ()⟩
      { initState none with
        decision := some ⟨.post, none⟩,
        draft := some ⟨"TODO: finish this later", some "t", "general"⟩ }
      ⟨"TODO: finish this later", some "t", "general"⟩ rfl).2.2 rfl
     (by decide) ⟨false, 0.6⟩ rfl (by norm_num)⟩

end Moltbook
